import Mathlib

/-!
Shallow embedding of the `la_nation` live-stream processing pipeline
(`src/la_nation/phrase_detector.py`, `main.py`, `enhanced_youtube_stream.py`,
`screenshot_capturer.py`) and proofs about its phrase matching, persistence,
strategy selection and screenshot throttling behaviour.
-/

namespace LaNation

/-- Splits a character list on whitespace, dropping empty pieces; `cur` is
the reversed current word. -/
def wordsAux : List Char → List Char → List (List Char)
  | [], cur => if cur = [] then [] else [cur.reverse]
  | c :: cs, cur =>
    if c.isWhitespace then
      if cur = [] then wordsAux cs [] else cur.reverse :: wordsAux cs []
    else wordsAux cs (c :: cur)

/-- Python `str.split()` with no arguments: split on runs of whitespace,
dropping empty pieces. -/
def pySplit (s : String) : List String :=
  (wordsAux s.data []).map String.mk

/-- Python `str.lower()` (kernel-reducible version of `String.toLower`;
the strings processed here are ASCII, where the two agree). -/
def pyLower (s : String) : String :=
  String.mk (s.data.map Char.toLower)

/-- Python `str.strip()`: remove leading and trailing whitespace. -/
def pyStrip (s : String) : String :=
  String.mk (((s.data.dropWhile Char.isWhitespace).reverse.dropWhile
    Char.isWhitespace).reverse)

/-- Python `" ".join(xs)` (kernel-reducible version of `String.intercalate`). -/
def joinWith (sep : String) : List String → String
  | [] => ""
  | [s] => s
  | s :: rest => s ++ (sep ++ joinWith sep rest)

/-- `startsWithChars p s` : `p` is a leading segment of `s` (character lists). -/
def startsWithChars : List Char → List Char → Bool
  | [], _ => true
  | _ :: _, [] => false
  | a :: as, b :: bs => a = b && startsWithChars as bs

/-- `substrChars p s` : `p` occurs contiguously somewhere inside `s`. -/
def substrChars (p : List Char) : List Char → Bool
  | [] => startsWithChars p []
  | s :: rest => startsWithChars p (s :: rest) || substrChars p rest

/-- Python `needle in haystack` on strings: contiguous substring test. -/
def pyContains (haystack needle : String) : Bool :=
  substrChars needle.data haystack.data

/-- `PhraseDetector.__init__` state: target phrases, window capacity,
the `deque(maxlen=context_window)` history, and the fired-phrase list. -/
structure PhraseDetector where
  target_phrases : List String
  context_window : Nat
  transcript_history : List String
  detected_phrases : List String
  deriving Repr, DecidableEq

/-- `PhraseDetector(target_phrases, context_window=5)`. -/
def PhraseDetector.init (phrases : List String) (window : Nat := 5) : PhraseDetector :=
  { target_phrases := phrases, context_window := window,
    transcript_history := [], detected_phrases := [] }

/-- `deque(maxlen=n).append(x)`: append on the right, evicting from the left
once the length would exceed `n`. -/
def dequeAppend (maxlen : Nat) (xs : List String) (x : String) : List String :=
  let ys := xs ++ [x]
  ys.drop (ys.length - maxlen)

/-- `PhraseDetector._detect_phrase(text, phrase)`: exact substring match,
else all words present for phrases of at most 2 words, else at least 75%
of the phrase's words present.  The Python code compares
`matches / len(phrase_words) >= 0.75` with float division; for the word
counts reachable here the float comparison agrees with the exact rational
one, embedded as `4 * matches >= 3 * total`. -/
def detect_phrase (text phrase : String) : Bool :=
  if pyContains text phrase then true
  else
    let phrase_words := pySplit phrase
    let text_words := pySplit text
    if phrase_words.length ≤ 2 then
      phrase_words.all (fun w => text_words.contains w)
    else
      decide (4 * (phrase_words.filter (fun w => text_words.contains w)).length ≥
              3 * phrase_words.length)

/-- The `for phrase in self.target_phrases` loop of `process_transcript`:
returns the newly detected phrases and the updated fired-phrase list. -/
def detectLoop (combined : String) :
    List String → List String → List String × List String
  | [], detected => ([], detected)
  | p :: ps, detected =>
    if detect_phrase combined (pyLower p) && !(detected.contains p) then
      let r := detectLoop combined ps (detected ++ [p])
      (p :: r.1, r.2)
    else
      detectLoop combined ps detected

/-- The lowercase joined text of the window after appending `chunk`. -/
def windowText (st : PhraseDetector) (chunk : String) : String :=
  pyLower (joinWith " "
    (dequeAppend st.context_window st.transcript_history chunk))

/-- `PhraseDetector.process_transcript(transcript_chunk)`: returns the list
of newly detected phrases and the successor state. -/
def process_transcript (st : PhraseDetector) (chunk : String) :
    List String × PhraseDetector :=
  if chunk = "" ∨ st.target_phrases = [] then ([], st)
  else
    let history := dequeAppend st.context_window st.transcript_history chunk
    let combined := pyLower (joinWith " " history)
    let r := detectLoop combined st.target_phrases st.detected_phrases
    (r.1, { st with transcript_history := history, detected_phrases := r.2 })

/-- `PhraseDetector.reset()`. -/
def PhraseDetector.reset (st : PhraseDetector) : PhraseDetector :=
  { st with transcript_history := [], detected_phrases := [] }

/-- `PhraseDetector.add_target_phrase(phrase)`. -/
def add_target_phrase (st : PhraseDetector) (phrase : String) : PhraseDetector :=
  if phrase ≠ "" ∧ phrase ∉ st.target_phrases then
    { st with target_phrases := st.target_phrases ++ [phrase] }
  else st

/-- Run `process_transcript` over a sequence of chunks, collecting each
call's newly-detected list. -/
def runDetector (st : PhraseDetector) : List String → List (List String) × PhraseDetector
  | [] => ([], st)
  | c :: cs =>
    let r := process_transcript st c
    let rest := runDetector r.2 cs
    (r.1 :: rest.1, rest.2)

/-! ## `main.py` — `YouTubeLiveProcessor` transcript persistence -/

/-- One file written to durable storage (path and full content; every write
in `main.py` opens with mode `w`, i.e. overwrites). -/
structure FileWrite where
  path : String
  content : String
  deriving Repr, DecidableEq

/-- The mutable persistence state of `YouTubeLiveProcessor` together with
its run-constant configuration. -/
structure ProcessorState where
  url : String
  target_phrases : List String
  output_dir : String
  transcript_counter : Nat
  full_transcript : String
  deriving Repr, DecidableEq

/-- Fresh processor state (`__init__`: counter 0, empty full transcript). -/
def ProcessorState.init (url : String) (phrases : List String)
    (out : String := "output") : ProcessorState :=
  { url := url, target_phrases := phrases, output_dir := out,
    transcript_counter := 0, full_transcript := "" }

/-- The wall-clock strings `time.strftime` produces during one call. -/
structure Clock where
  fileStamp : String
  dateTime : String
  timeOfDay : String
  deriving Repr, DecidableEq

/-- Python `f"{n:03d}"`. -/
def pad3 (n : Nat) : String :=
  let s := toString n
  String.mk (List.replicate (3 - s.length) '0') ++ s

/-- `"=" * k`. -/
def eqBar (k : Nat) : String :=
  String.mk (List.replicate k '=')

/-- Content of one individual segment record file
(`_save_transcript_chunk`, first `open`). -/
def chunkRecordContent (st : ProcessorState) (clk : Clock) (chunk : String)
    (counter : Nat) : String :=
  "La Nation - Transcript Segment " ++ toString counter ++ "\n" ++
  "Timestamp: " ++ clk.dateTime ++ "\n" ++
  "Video: " ++ st.url ++ "\n" ++
  eqBar 50 ++ "\n\n" ++ chunk

/-- Content of the cumulative `full_transcript.txt` snapshot
(`_save_transcript_chunk`, second `open`), written from the state after
the chunk was appended. -/
def fullTranscriptContent (st : ProcessorState) (clk : Clock) : String :=
  "La Nation - Complete Live Stream Transcript\n" ++
  "Video: " ++ st.url ++ "\n" ++
  "Started: " ++ clk.dateTime ++ "\n" ++
  "Segments processed: " ++ toString st.transcript_counter ++ "\n" ++
  eqBar 60 ++ "\n" ++
  st.full_transcript

/-- `YouTubeLiveProcessor._save_transcript_chunk(transcript_chunk)`:
increments the counter, writes the individual segment record, appends to
the in-memory full transcript and rewrites the cumulative snapshot. -/
def save_transcript_chunk (st : ProcessorState) (clk : Clock) (chunk : String) :
    ProcessorState × List FileWrite :=
  let counter := st.transcript_counter + 1
  let chunkPath := st.output_dir ++ "/transcripts/segment_" ++ pad3 counter ++
    "_" ++ clk.fileStamp ++ ".txt"
  let st1 : ProcessorState :=
    { st with transcript_counter := counter,
              full_transcript :=
                st.full_transcript ++ "\n[" ++ clk.timeOfDay ++ "] " ++ chunk }
  (st1, [⟨chunkPath, chunkRecordContent st clk chunk counter⟩,
         ⟨st.output_dir ++ "/transcripts/full_transcript.txt",
          fullTranscriptContent st1 clk⟩])

/-- `YouTubeLiveProcessor._process_audio_chunk_direct`: `none` models a
transcription failure (exception or `None` result); a non-`None` string is
returned stripped, and only when the stripped text is non-empty. -/
def process_audio_chunk_direct (transcript : Option String) : Option String :=
  match transcript with
  | none => none
  | some t => if t ≠ "" ∧ pyStrip t ≠ "" then some (pyStrip t) else none

/-- One extraction tick of the main loop in `start` (lines 184–197):
`audio = none` models a failed `extract_audio`; `some r` carries the raw
transcription result `r` of the extracted chunk.  Returns the successor
state and the file writes performed. -/
def cycleStep (st : ProcessorState) (clk : Clock) (audio : Option (Option String)) :
    ProcessorState × List FileWrite :=
  match audio with
  | none => (st, [])
  | some transcriptRes =>
    match process_audio_chunk_direct transcriptRes with
    | some chunk => save_transcript_chunk st clk chunk
    | none => (st, [])

/-- Content of `final_transcript.txt` (`_save_final_transcript`). -/
def finalTranscriptContent (st : ProcessorState) (clk : Clock) : String :=
  eqBar 60 ++ "\n" ++
  "LA NATION - LIVE STREAM ANALYSIS COMPLETE\n" ++
  eqBar 60 ++ "\n\n" ++
  "🎬 Video URL: " ++ st.url ++ "\n" ++
  "📅 Date: " ++ clk.dateTime ++ "\n" ++
  "📊 Total segments: " ++ toString st.transcript_counter ++ "\n" ++
  "📝 Total characters: " ++ toString st.full_transcript.length ++ "\n" ++
  "🔍 Target phrases: " ++
    (if st.target_phrases ≠ [] then joinWith ", " st.target_phrases else "None") ++ "\n" ++
  "📂 Output directory: " ++ st.output_dir ++ "\n\n" ++
  "COMPLETE TRANSCRIPT:\n" ++
  eqBar 60 ++ "\n" ++
  st.full_transcript

/-- `YouTubeLiveProcessor._save_final_transcript` (the spec's `flushFinal`):
writes the closing summary only when `full_transcript` is non-empty,
otherwise it logs a warning and writes nothing; the state is untouched. -/
def save_final_transcript (st : ProcessorState) (clk : Clock) :
    Option FileWrite × ProcessorState :=
  if st.full_transcript ≠ "" then
    (some ⟨st.output_dir ++ "/final_transcript.txt", finalTranscriptContent st clk⟩, st)
  else
    (none, st)

/-! ## `enhanced_youtube_stream.py` — acquisition strategy chain -/

/-- Outcome of one acquisition strategy's attempt: it resolved a source
(`success`), returned `False` (`failure`), or raised an exception
(`raised`). -/
inductive StrategyOutcome where
  | success
  | failure
  | raised
  deriving Repr, DecidableEq

/-- Result of invoking one `_setup_with_*` strategy method: each wraps its
body in `try/except`, so a raised exception is caught inside the strategy
and surfaces as `False`. -/
def tryStrategy : StrategyOutcome → Bool
  | .success => true
  | .failure => false
  | .raised => false

/-- `EnhancedYouTubeStream.setup`'s sequential strategy dispatch over a
priority-ordered list of named strategies.  Returns the name pinned in
`successful_strategy` (or `none` when every strategy failed) together with
the list of strategies actually invoked, in order. -/
def setupChain : List (String × StrategyOutcome) → Option String × List String
  | [] => (none, [])
  | (name, o) :: rest =>
    if tryStrategy o then (some name, [name])
    else
      let r := setupChain rest
      (r.1, name :: r.2)

/-- `EnhancedYouTubeStream.setup()`: tries yt-dlp, then streamlink, then
direct extraction, in that fixed order. -/
def EnhancedYouTubeStream.setup (s1 s2 s3 : StrategyOutcome) :
    Option String × List String :=
  setupChain [("yt-dlp", s1), ("streamlink", s2), ("direct_extraction", s3)]

/-! ## `screenshot_capturer.py` — throttled frame capture -/

/-- `ScreenshotCapturer` state: the time of the last capture that proceeded
and the configured minimum interval.  Wall-clock timestamps are modelled as
integers (seconds); the throttle logic uses only subtraction and `<`. -/
structure ScreenshotCapturer where
  last_capture_time : Int
  min_capture_interval : Int
  deriving DecidableEq

/-- `ScreenshotCapturer.__init__`: `last_capture_time = 0`,
`min_capture_interval = 2`. -/
def ScreenshotCapturer.init : ScreenshotCapturer :=
  { last_capture_time := 0, min_capture_interval := 2 }

/-- `ScreenshotCapturer.capture_screenshot(frame, phrase, throttle)` at
wall-clock time `now`: a throttled request strictly within
`min_capture_interval` of the last capture returns `None` and leaves the
state untouched; otherwise the capture proceeds (modelled as returning its
timestamp) and `last_capture_time` is updated. -/
def capture_screenshot (st : ScreenshotCapturer) (now : Int) (throttle : Bool) :
    Option Int × ScreenshotCapturer :=
  if throttle ∧ now - st.last_capture_time < st.min_capture_interval then
    (none, st)
  else
    (some now, { st with last_capture_time := now })

/-- Run a sequence of throttled capture requests at the given times. -/
def runCaptures (st : ScreenshotCapturer) :
    List Int → List (Option Int) × ScreenshotCapturer
  | [] => ([], st)
  | t :: ts =>
    let r := capture_screenshot st t true
    let rest := runCaptures r.2 ts
    (r.1 :: rest.1, rest.2)

end LaNation

namespace LaNation


/-! ## Lemmas about the detection loop -/

theorem detectLoop_nil (c : String) (d : List String) :
    detectLoop c [] d = ([], d) := rfl

theorem detectLoop_cons (c p : String) (ps d : List String) :
    detectLoop c (p :: ps) d =
      if detect_phrase c (pyLower p) && !(d.contains p) then
        (p :: (detectLoop c ps (d ++ [p])).1, (detectLoop c ps (d ++ [p])).2)
      else detectLoop c ps d := rfl

/-- The fired-phrase list after the loop is the old one extended, in order,
by exactly the newly detected phrases. -/
theorem detectLoop_detected_eq (c : String) :
    ∀ (ps d : List String), (detectLoop c ps d).2 = d ++ (detectLoop c ps d).1 := by
  intro ps
  induction ps with
  | nil => intro d; simp [detectLoop_nil]
  | cons p ps ih =>
    intro d
    rw [detectLoop_cons]
    split
    · simp [ih (d ++ [p])]
    · simp [ih d]

/-- A phrase is newly emitted by the loop iff it is a target, it matches
the combined text, and it had not already fired. -/
theorem detectLoop_mem_out (c phrase : String) :
    ∀ (ps d : List String),
      phrase ∈ (detectLoop c ps d).1 ↔
        phrase ∈ ps ∧ detect_phrase c (pyLower phrase) = true ∧ phrase ∉ d := by
  intro ps
  induction ps with
  | nil => intro d; simp [detectLoop_nil]
  | cons p ps ih =>
    intro d
    rw [detectLoop_cons]
    by_cases hb : (detect_phrase c (pyLower p) && !(d.contains p)) = true
    · rw [if_pos hb]
      obtain ⟨hdet, hd⟩ : detect_phrase c (pyLower p) = true ∧ p ∉ d := by
        simpa using hb
      simp only [List.mem_cons, ih (d ++ [p]), List.mem_append, List.mem_singleton]
      by_cases hp : phrase = p
      · subst hp; simp [hdet, hd]
      · simp [hp]
    · rw [if_neg hb]
      have hnb : ¬ (detect_phrase c (pyLower p) = true ∧ p ∉ d) := by
        intro h; exact hb (by simp [h.1, h.2])
      rw [ih d]
      simp only [List.mem_cons]
      by_cases hp : phrase = p
      · subst hp
        constructor
        · rintro ⟨h1, h2, h3⟩; exact ⟨Or.inr h1, h2, h3⟩
        · rintro ⟨_, h2, h3⟩; exact (hnb ⟨h2, h3⟩).elim
      · constructor
        · rintro ⟨h1, h2, h3⟩; exact ⟨Or.inr h1, h2, h3⟩
        · rintro ⟨h1 | h1, h2, h3⟩
          · exact absurd h1 hp
          · exact ⟨h1, h2, h3⟩

/-- The newly-detected list of one loop pass has no duplicates. -/
theorem detectLoop_out_nodup (c : String) :
    ∀ (ps d : List String), (detectLoop c ps d).1.Nodup := by
  intro ps
  induction ps with
  | nil => intro d; simp [detectLoop_nil]
  | cons p ps ih =>
    intro d
    rw [detectLoop_cons]
    split
    · refine List.nodup_cons.mpr ⟨fun hp => ?_, ih (d ++ [p])⟩
      have := (detectLoop_mem_out c p ps (d ++ [p])).mp hp
      exact this.2.2 (by simp)
    · exact ih d

/-! ## Lemmas about `process_transcript` -/

theorem process_transcript_guard (st : PhraseDetector) (chunk : String)
    (h : chunk = "" ∨ st.target_phrases = []) :
    process_transcript st chunk = ([], st) := by
  simp [process_transcript, h]

theorem process_transcript_run (st : PhraseDetector) (chunk : String)
    (hc : chunk ≠ "") (ht : st.target_phrases ≠ []) :
    process_transcript st chunk =
      ((detectLoop (windowText st chunk) st.target_phrases st.detected_phrases).1,
       { st with
          transcript_history := dequeAppend st.context_window st.transcript_history chunk,
          detected_phrases :=
            (detectLoop (windowText st chunk) st.target_phrases st.detected_phrases).2 }) := by
  simp [process_transcript, windowText, hc, ht]

/-- A phrase is emitted by one `process_transcript` call iff the chunk is
non-empty, the phrase is a target, it matches the new window text, and it
had not already fired. -/
theorem process_transcript_mem (st : PhraseDetector) (phrase chunk : String) :
    phrase ∈ (process_transcript st chunk).1 ↔
      chunk ≠ "" ∧ phrase ∈ st.target_phrases ∧
        detect_phrase (windowText st chunk) (pyLower phrase) = true ∧
        phrase ∉ st.detected_phrases := by
  by_cases hc : chunk = ""
  · rw [process_transcript_guard st chunk (Or.inl hc)]
    simp [hc]
  · by_cases ht : st.target_phrases = []
    · simp [process_transcript_guard st chunk (Or.inr ht), ht]
    · rw [process_transcript_run st chunk hc ht, detectLoop_mem_out]
      tauto

theorem process_transcript_count_le_one (st : PhraseDetector) (phrase chunk : String) :
    (process_transcript st chunk).1.count phrase ≤ 1 := by
  by_cases h : chunk = "" ∨ st.target_phrases = []
  · simp [process_transcript_guard st chunk h]
  · push_neg at h
    rw [process_transcript_run st chunk h.1 h.2]
    exact List.nodup_iff_count_le_one.mp (detectLoop_out_nodup _ _ _) phrase

theorem process_transcript_fired_stays (st : PhraseDetector) (phrase chunk : String)
    (h : phrase ∈ st.detected_phrases) :
    (process_transcript st chunk).1.count phrase = 0 ∧
      phrase ∈ (process_transcript st chunk).2.detected_phrases := by
  by_cases hg : chunk = "" ∨ st.target_phrases = []
  · simp [process_transcript_guard st chunk hg, h]
  · push_neg at hg
    rw [process_transcript_run st chunk hg.1 hg.2]
    constructor
    · refine List.count_eq_zero.mpr fun hm => ?_
      exact ((detectLoop_mem_out _ phrase _ _).mp hm).2.2 h
    · simp only [detectLoop_detected_eq]
      exact List.mem_append_left _ h

theorem process_transcript_emitted_fires (st : PhraseDetector) (phrase chunk : String)
    (h : phrase ∈ (process_transcript st chunk).1) :
    phrase ∈ (process_transcript st chunk).2.detected_phrases := by
  by_cases hg : chunk = "" ∨ st.target_phrases = []
  · simp [process_transcript_guard st chunk hg] at h
  · push_neg at hg
    rw [process_transcript_run st chunk hg.1 hg.2] at h ⊢
    simp only [detectLoop_detected_eq]
    exact List.mem_append_right _ h

/-- Across any run, a phrase is emitted at most once unless it was already
fired at the start, in which case it is never emitted. -/
theorem runDetector_count (phrase : String) :
    ∀ (chunks : List String) (st : PhraseDetector),
      ((runDetector st chunks).1.flatten).count phrase ≤
        (if phrase ∈ st.detected_phrases then 0 else 1) := by
  intro chunks
  induction chunks with
  | nil => intro st; simp [runDetector]
  | cons c cs ih =>
    intro st
    have hstep : (runDetector st (c :: cs)).1 =
        (process_transcript st c).1 :: (runDetector (process_transcript st c).2 cs).1 := rfl
    rw [hstep]
    simp only [List.flatten_cons, List.count_append]
    by_cases hd : phrase ∈ st.detected_phrases
    · have h1 := process_transcript_fired_stays st phrase c hd
      have h2 := ih (process_transcript st c).2
      simp [hd, h1.2] at h2 ⊢
      omega
    · by_cases hm : phrase ∈ (process_transcript st c).1
      · have h1 := process_transcript_count_le_one st phrase c
        have h2 := ih (process_transcript st c).2
        have h3 := process_transcript_emitted_fires st phrase c hm
        simp [hd, h3] at h2 ⊢
        omega
      · have h1 : (process_transcript st c).1.count phrase = 0 :=
          List.count_eq_zero.mpr hm
        have h2 := ih (process_transcript st c).2
        simp only [hd, if_false, h1, Nat.zero_add]
        exact le_trans h2 (by split <;> omega)

/-! ## The matching rules of `_detect_phrase` -/

theorem detect_phrase_short (text phrase : String)
    (h : (pySplit phrase).length ≤ 2) :
    detect_phrase text phrase = true ↔
      (pyContains text phrase = true ∨
        ∀ w ∈ pySplit phrase, w ∈ pySplit text) := by
  unfold detect_phrase
  by_cases hc : pyContains text phrase = true
  · simp [hc]
  · simp [hc, h, List.all_eq_true]

theorem detect_phrase_long (text phrase : String)
    (h3 : 3 ≤ (pySplit phrase).length)
    (hns : pyContains text phrase = false) :
    detect_phrase text phrase = true ↔
      4 * ((pySplit phrase).filter (fun w => (pySplit text).contains w)).length ≥
        3 * (pySplit phrase).length := by
  unfold detect_phrase
  have h2 : ¬ (pySplit phrase).length ≤ 2 := by omega
  simp [hns, h2]

/-! ## Claim theorems for the phrase detector -/

/-- Claim C1, counterexample: the two-word target `"ood morn"` fires on the
single chunk `"good morning"` because rule 1 of `_detect_phrase` matches it
as a character substring, yet the word `"ood"` is not in the window's word
set — refuting "fires only if every individual word appears in the word
set". -/
theorem short_phrase_substring_counterexample :
    ((process_transcript (PhraseDetector.init ["ood morn"]) "good morning").1
        = ["ood morn"]) ∧
    ((pySplit (pyLower "ood morn")).length ≤ 2) ∧
    ¬ (∀ w ∈ pySplit (pyLower "ood morn"),
        w ∈ pySplit (windowText (PhraseDetector.init ["ood morn"]) "good morning")) := by
  refine ⟨by decide, by decide, ?_⟩
  intro h
  exact absurd (h "ood" (by decide)) (by decide)

/-- Claim C1, amended: an un-fired target phrase of at most 2 words fires on
a non-empty chunk iff the lowercased phrase is an exact substring of the
window's lowercased joined text, or every individual word of the phrase
appears in the window's word set, regardless of order. -/
theorem short_phrase_fires_iff (st : PhraseDetector) (phrase chunk : String)
    (hmem : phrase ∈ st.target_phrases)
    (hnf : phrase ∉ st.detected_phrases)
    (hc : chunk ≠ "")
    (hlen : (pySplit (pyLower phrase)).length ≤ 2) :
    phrase ∈ (process_transcript st chunk).1 ↔
      (pyContains (windowText st chunk) (pyLower phrase) = true ∨
        ∀ w ∈ pySplit (pyLower phrase), w ∈ pySplit (windowText st chunk)) := by
  rw [process_transcript_mem]
  simp only [hc, hmem, hnf, ne_eq, not_false_eq_true, true_and, and_true]
  exact detect_phrase_short (windowText st chunk) (pyLower phrase) hlen

/-- Witness for `short_phrase_fires_iff` at a concrete state: the target
`"good morning"` against the chunk `"morning good everyone"`. -/
theorem short_phrase_fires_iff_witness :
    ("good morning" ∈ (PhraseDetector.init ["good morning"]).target_phrases) ∧
    ("good morning" ∉ (PhraseDetector.init ["good morning"]).detected_phrases) ∧
    ("morning good everyone" ≠ "") ∧
    ((pySplit (pyLower "good morning")).length ≤ 2) ∧
    ("good morning" ∈
        (process_transcript (PhraseDetector.init ["good morning"])
          "morning good everyone").1 ↔
      (pyContains
          (windowText (PhraseDetector.init ["good morning"]) "morning good everyone")
          (pyLower "good morning") = true ∨
        ∀ w ∈ pySplit (pyLower "good morning"),
          w ∈ pySplit
            (windowText (PhraseDetector.init ["good morning"]) "morning good everyone"))) :=
  ⟨by decide, by decide, by decide, by decide,
   short_phrase_fires_iff _ _ _ (by decide) (by decide) (by decide) (by decide)⟩

/-- Claim C2 (confirmed): a target phrase of at least 3 words that is not an
exact substring of the window's joined text matches iff the fraction of its
words present in the window's word set is at least 0.75. -/
theorem long_phrase_threshold (text phrase : String)
    (h3 : 3 ≤ (pySplit phrase).length)
    (hns : pyContains text phrase = false) :
    detect_phrase text phrase = true ↔
      ((((pySplit phrase).filter (fun w => (pySplit text).contains w)).length : ℚ) /
        ((pySplit phrase).length : ℚ) ≥ 3 / 4) := by
  rw [detect_phrase_long text phrase h3 hns]
  have hpos : (0 : ℚ) < ((pySplit phrase).length : ℚ) :=
    by exact_mod_cast Nat.lt_of_lt_of_le (by norm_num) h3
  have key : ((((pySplit phrase).filter (fun w => (pySplit text).contains w)).length : ℚ) /
        ((pySplit phrase).length : ℚ) ≥ 3 / 4) ↔
      (3 : ℚ) * ((pySplit phrase).length : ℚ) ≤
        4 * (((pySplit phrase).filter (fun w => (pySplit text).contains w)).length : ℚ) := by
    rw [ge_iff_le, div_le_div_iff₀ (by norm_num) hpos]
    constructor <;> intro h <;> linarith
  rw [key]
  constructor
  · intro h; exact_mod_cast h
  · intro h; exact_mod_cast h

/-- Witness for `long_phrase_threshold`: the 4-word phrase
`"artificial intelligence is transforming"` fires with 3 of its 4 words
present (ratio exactly 0.75) and does not fire with only 2 present. -/
theorem long_phrase_threshold_witness :
    (3 ≤ (pySplit "artificial intelligence is transforming").length) ∧
    (pyContains "artificial intelligence transforming hello"
        "artificial intelligence is transforming" = false) ∧
    (detect_phrase "artificial intelligence transforming hello"
        "artificial intelligence is transforming" = true ↔
      ((((pySplit "artificial intelligence is transforming").filter
            (fun w => (pySplit "artificial intelligence transforming hello").contains w)).length : ℚ) /
        ((pySplit "artificial intelligence is transforming").length : ℚ) ≥ 3 / 4)) ∧
    (detect_phrase "artificial intelligence transforming hello"
        "artificial intelligence is transforming" = true) ∧
    (detect_phrase "artificial intelligence hello world"
        "artificial intelligence is transforming" = false) :=
  ⟨by decide, by decide,
   long_phrase_threshold _ _ (by decide) (by decide),
   by decide, by decide⟩

/-- Claim C3 (confirmed): within one run (no reset), a phrase not already
fired at the start is emitted as a new detection at most once across any
sequence of `process_transcript` calls. -/
theorem phrase_fires_at_most_once (st : PhraseDetector) (phrase : String)
    (chunks : List String) (h : phrase ∉ st.detected_phrases) :
    ((runDetector st chunks).1.flatten).count phrase ≤ 1 := by
  have hb := runDetector_count phrase chunks st
  simpa [h] using hb

/-- Witness for `phrase_fires_at_most_once`: feeding the matching text
`"breaking news"` twice yields exactly one detection event in total. -/
theorem phrase_fires_at_most_once_witness :
    ("breaking news" ∉ (PhraseDetector.init ["breaking news"]).detected_phrases) ∧
    (((runDetector (PhraseDetector.init ["breaking news"])
        ["breaking news", "breaking news"]).1.flatten).count "breaking news" ≤ 1) ∧
    ((runDetector (PhraseDetector.init ["breaking news"])
        ["breaking news", "breaking news"]).1 = [["breaking news"], []]) :=
  ⟨by decide,
   phrase_fires_at_most_once _ _ _ (by decide),
   by decide⟩

/-- Claim C8 (confirmed): with an empty target-phrase list,
`process_transcript` returns no detections and leaves the state unchanged —
in particular the chunk is not appended to the context window. -/
theorem empty_targets_no_change (st : PhraseDetector) (chunk : String)
    (h : st.target_phrases = []) :
    process_transcript st chunk = ([], st) :=
  process_transcript_guard st chunk (Or.inr h)

/-- Witness for `empty_targets_no_change` on a non-empty chunk. -/
theorem empty_targets_no_change_witness :
    ((PhraseDetector.init []).target_phrases = []) ∧
    (process_transcript (PhraseDetector.init []) "hello world"
      = ([], PhraseDetector.init [])) :=
  ⟨rfl, empty_targets_no_change _ _ rfl⟩

/-- Claim C9 (confirmed): `reset` clears both the context window and the
fired-phrase set, so a phrase that fired before the reset fires again when
matching text is observed after the reset. -/
theorem reset_allows_refire (st : PhraseDetector) (phrase chunk : String)
    (_hfired : phrase ∈ st.detected_phrases)
    (hmem : phrase ∈ st.target_phrases)
    (hc : chunk ≠ "")
    (hdet : detect_phrase (windowText st.reset chunk) (pyLower phrase) = true) :
    st.reset.transcript_history = [] ∧ st.reset.detected_phrases = [] ∧
      phrase ∈ (process_transcript st.reset chunk).1 := by
  refine ⟨rfl, rfl, ?_⟩
  rw [process_transcript_mem]
  exact ⟨hc, hmem, hdet, by simp [PhraseDetector.reset]⟩

/-- Witness for `reset_allows_refire`: a detector that already fired on
`"hi"` fires on it again after `reset`. -/
theorem reset_allows_refire_witness :
    ("hi" ∈ (⟨["hi"], 5, ["hi there"], ["hi"]⟩ : PhraseDetector).detected_phrases) ∧
    ("hi" ∈ (⟨["hi"], 5, ["hi there"], ["hi"]⟩ : PhraseDetector).target_phrases) ∧
    ("hi folks" ≠ "") ∧
    (detect_phrase
        (windowText (⟨["hi"], 5, ["hi there"], ["hi"]⟩ : PhraseDetector).reset "hi folks")
        (pyLower "hi") = true) ∧
    ((⟨["hi"], 5, ["hi there"], ["hi"]⟩ : PhraseDetector).reset.transcript_history = [] ∧
      (⟨["hi"], 5, ["hi there"], ["hi"]⟩ : PhraseDetector).reset.detected_phrases = [] ∧
      "hi" ∈ (process_transcript
        (⟨["hi"], 5, ["hi there"], ["hi"]⟩ : PhraseDetector).reset "hi folks").1) :=
  ⟨by decide, by decide, by decide, by decide,
   reset_allows_refire _ _ _ (by decide) (by decide) (by decide) (by decide)⟩

/-- Claim C10 (confirmed): `add_target_phrase` with an empty phrase or a
phrase already present leaves the target list unchanged, and it preserves
the no-duplicates invariant of the target list. -/
theorem add_target_phrase_idempotent (st : PhraseDetector) (phrase : String) :
    ((phrase = "" ∨ phrase ∈ st.target_phrases) → add_target_phrase st phrase = st) ∧
    (st.target_phrases.Nodup → (add_target_phrase st phrase).target_phrases.Nodup) := by
  constructor
  · intro h
    unfold add_target_phrase
    rcases h with h | h
    · simp [h]
    · simp [h]
  · intro hn
    unfold add_target_phrase
    by_cases hcond : phrase ≠ "" ∧ phrase ∉ st.target_phrases
    · rw [if_pos hcond]
      have hnd : (st.target_phrases ++ [phrase]).Nodup := by
        simp [List.nodup_append]
        exact ⟨hn, hcond.2⟩
      exact hnd
    · rw [if_neg hcond]
      exact hn

/-- Witness for `add_target_phrase_idempotent`: re-adding an existing
phrase is a no-op, and adding a fresh phrase keeps the list duplicate
free. -/
theorem add_target_phrase_idempotent_witness :
    ("breaking news" ∈ (PhraseDetector.init ["breaking news"]).target_phrases) ∧
    (add_target_phrase (PhraseDetector.init ["breaking news"]) "breaking news"
      = PhraseDetector.init ["breaking news"]) ∧
    ((PhraseDetector.init ["breaking news"]).target_phrases.Nodup) ∧
    ((add_target_phrase (PhraseDetector.init ["breaking news"]) "alert").target_phrases.Nodup) :=
  ⟨by decide,
   (add_target_phrase_idempotent (PhraseDetector.init ["breaking news"]) "breaking news").1
     (Or.inr (by decide)),
   by decide,
   (add_target_phrase_idempotent (PhraseDetector.init ["breaking news"]) "alert").2
     (by decide)⟩

/-! ## Claim theorems for transcript persistence (`main.py`) -/

/-- Claim C4, counterexample: a cycle whose transcription returns empty text
persists nothing — no individual segment record is written, the cumulative
snapshot is not rewritten, and the counter does not advance — refuting
"every transcript chunk, including a chunk with empty text, is persisted".
(`_process_audio_chunk_direct` maps an empty transcript to `None`, and
`start` saves only `if transcript_chunk:`.) -/
theorem empty_chunk_not_persisted :
    cycleStep (ProcessorState.init "https://youtube.com/watch?v=x" [])
        ⟨"20240101_000000", "2024-01-01 00:00:00", "00:00:00"⟩ (some (some ""))
      = (ProcessorState.init "https://youtube.com/watch?v=x" [], []) := by
  decide

/-- Claim C4, amended: only chunks whose transcription text is non-empty
after stripping are persisted.  A cycle whose stripped transcript is empty
writes nothing and leaves the state unchanged; a cycle with non-empty
stripped text writes the individual segment record, rewrites the cumulative
snapshot from the updated state, and advances the counter. -/
theorem chunk_persistence (st : ProcessorState) (clk : Clock) (raw : String) :
    (pyStrip raw = "" → cycleStep st clk (some (some raw)) = (st, [])) ∧
    (pyStrip raw ≠ "" →
      (cycleStep st clk (some (some raw))).2 =
        [⟨st.output_dir ++ "/transcripts/segment_" ++ pad3 (st.transcript_counter + 1) ++
            "_" ++ clk.fileStamp ++ ".txt",
          chunkRecordContent st clk (pyStrip raw) (st.transcript_counter + 1)⟩,
         ⟨st.output_dir ++ "/transcripts/full_transcript.txt",
          fullTranscriptContent
            { st with
                transcript_counter := st.transcript_counter + 1,
                full_transcript :=
                  st.full_transcript ++ "\n[" ++ clk.timeOfDay ++ "] " ++ pyStrip raw }
            clk⟩] ∧
      (cycleStep st clk (some (some raw))).1.transcript_counter
        = st.transcript_counter + 1) := by
  constructor
  · intro hs
    have hnone : process_audio_chunk_direct (some raw) = none := by
      simp [process_audio_chunk_direct, hs]
    simp [cycleStep, hnone]
  · intro hs
    have hraw : raw ≠ "" := by
      intro he
      subst he
      exact hs (by decide)
    have hp : process_audio_chunk_direct (some raw) = some (pyStrip raw) := by
      simp [process_audio_chunk_direct, hraw, hs]
    have hcyc : cycleStep st clk (some (some raw))
        = save_transcript_chunk st clk (pyStrip raw) := by
      simp [cycleStep, hp]
    rw [hcyc]
    exact ⟨rfl, rfl⟩

/-- Witness for `chunk_persistence`: a whitespace-only result persists
nothing; the chunk `" hello "` is stripped, saved, and advances the
counter. -/
theorem chunk_persistence_witness :
    (pyStrip "   " = "" ∧
      cycleStep (ProcessorState.init "u" []) ⟨"f", "d", "t"⟩ (some (some "   "))
        = (ProcessorState.init "u" [], [])) ∧
    (pyStrip " hello " ≠ "" ∧
      (cycleStep (ProcessorState.init "u" []) ⟨"f", "d", "t"⟩
          (some (some " hello "))).1.transcript_counter
        = (ProcessorState.init "u" []).transcript_counter + 1) :=
  ⟨⟨by decide, (chunk_persistence _ _ _).1 (by decide)⟩,
   ⟨by decide, ((chunk_persistence (ProcessorState.init "u" []) ⟨"f", "d", "t"⟩
      " hello ").2 (by decide)).2⟩⟩

/-- Claim C5, counterexample: with zero chunks ever recorded
(`full_transcript` empty), `_save_final_transcript` — the spec's
`flushFinal` — writes nothing at all (it only logs a warning), refuting
"writes an empty-content summary rather than failing or writing
nothing". -/
theorem flush_final_empty_counterexample :
    (save_final_transcript (ProcessorState.init "https://youtube.com/watch?v=x" [])
        ⟨"20240101_000000", "2024-01-01 00:00:00", "00:00:00"⟩).1 = none := by
  decide

/-- Claim C5, amended: `flushFinal` is idempotent — it leaves the processor
state unchanged, so calling it twice from the same state (with the same
wall-clock strings) produces byte-identical summary output — and it is safe
to call with zero chunks recorded, but in that case it writes nothing at
all rather than an empty-content summary. -/
theorem flush_final_idempotent (st : ProcessorState) (clk : Clock) :
    ((save_final_transcript st clk).2 = st) ∧
    ((save_final_transcript (save_final_transcript st clk).2 clk).1
      = (save_final_transcript st clk).1) ∧
    (st.full_transcript = "" → (save_final_transcript st clk).1 = none) := by
  have hstate : (save_final_transcript st clk).2 = st := by
    unfold save_final_transcript
    split <;> rfl
  refine ⟨hstate, by rw [hstate], ?_⟩
  intro h
  simp [save_final_transcript, h]

/-- Witness for `flush_final_idempotent` at the fresh zero-chunk state. -/
theorem flush_final_idempotent_witness :
    ((save_final_transcript (ProcessorState.init "u" []) ⟨"f", "d", "t"⟩).2
      = ProcessorState.init "u" []) ∧
    ((ProcessorState.init "u" []).full_transcript = "") ∧
    ((save_final_transcript (ProcessorState.init "u" []) ⟨"f", "d", "t"⟩).1 = none) :=
  ⟨(flush_final_idempotent (ProcessorState.init "u" []) ⟨"f", "d", "t"⟩).1,
   rfl,
   (flush_final_idempotent (ProcessorState.init "u" []) ⟨"f", "d", "t"⟩).2.2 rfl⟩

/-! ## Claim theorem for the acquisition strategy chain -/

theorem setupChain_skip_failures :
    ∀ (pre rest : List (String × StrategyOutcome)),
      (∀ x ∈ pre, tryStrategy x.2 = false) →
      setupChain (pre ++ rest) =
        ((setupChain rest).1, pre.map Prod.fst ++ (setupChain rest).2) := by
  intro pre
  induction pre with
  | nil => intro rest _; simp
  | cons a pre ih =>
    intro rest hpre
    have ha : tryStrategy a.2 = false := hpre a (List.mem_cons_self a pre)
    have htail : ∀ x ∈ pre, tryStrategy x.2 = false :=
      fun x hx => hpre x (List.mem_cons_of_mem a hx)
    calc setupChain ((a :: pre) ++ rest)
        = setupChain ((a.1, a.2) :: (pre ++ rest)) := by simp
      _ = ((setupChain (pre ++ rest)).1, a.1 :: (setupChain (pre ++ rest)).2) := by
            rw [setupChain]
            simp [ha]
      _ = ((setupChain rest).1, (a :: pre).map Prod.fst ++ (setupChain rest).2) := by
            rw [ih rest htail]; simp

/-- Claim C6 (confirmed): `setup` tries the strategies in fixed priority
order; a strategy failure (including a raised exception, which each
strategy catches internally) advances the chain; the first success is
pinned as `successful_strategy` and no later strategy is invoked; and when
every strategy fails, `setup` reports failure (`none`). -/
theorem setup_first_success_wins (pre post : List (String × StrategyOutcome))
    (name : String) (o : StrategyOutcome)
    (hpre : ∀ x ∈ pre, tryStrategy x.2 = false)
    (ho : tryStrategy o = true) :
    (setupChain (pre ++ (name, o) :: post)
      = (some name, pre.map Prod.fst ++ [name])) ∧
    (∀ ss : List (String × StrategyOutcome),
      (∀ x ∈ ss, tryStrategy x.2 = false) →
        setupChain ss = (none, ss.map Prod.fst)) := by
  constructor
  · rw [setupChain_skip_failures pre _ hpre]
    rw [setupChain]
    simp [ho]
  · intro ss hss
    have h := setupChain_skip_failures ss [] hss
    simpa [setupChain] using h

/-- Witness for `setup_first_success_wins`: strategy 1 raises, strategy 2
succeeds — `setup` pins streamlink and never invokes direct extraction. -/
theorem setup_first_success_wins_witness :
    (∀ x ∈ [("yt-dlp", StrategyOutcome.raised)], tryStrategy x.2 = false) ∧
    (tryStrategy StrategyOutcome.success = true) ∧
    (EnhancedYouTubeStream.setup .raised .success .success
      = (some "streamlink", ["yt-dlp", "streamlink"])) :=
  ⟨by decide, by decide,
   (setup_first_success_wins [("yt-dlp", .raised)] [("direct_extraction", .success)]
     "streamlink" .success (by decide) (by decide)).1⟩

/-! ## Claim theorems for screenshot throttling -/

/-- Claim C7, counterexample: with captures requested at times 10, 11 and 12
(interval 2), the requests at 11 and 12 are less than the minimum interval
apart, yet the capture proceeds at 12 while the one at 11 was dropped —
refuting "only the first of two requests less than the interval apart
proceeds; the second is dropped".  A dropped request does not update
`last_capture_time`, so the request at 12 measures against the capture at
10. -/
theorem capture_throttle_counterexample :
    ((runCaptures ScreenshotCapturer.init [10, 11, 12]).1
      = [some 10, none, some 12]) ∧
    ((12 : Int) - 11 < ScreenshotCapturer.init.min_capture_interval) :=
  ⟨by decide, by decide⟩

/-- Claim C7, amended: after a throttled capture request proceeds at time
`t`, every throttled request at a time `t'` with `t' - t` strictly less
than `min_capture_interval` is dropped (returns no screenshot path); hence
any two captures that both save are at least the interval apart. -/
theorem capture_throttle (st : ScreenshotCapturer) (t t' : Int)
    (hp : (capture_screenshot st t true).1.isSome = true)
    (hlt : t' - t < st.min_capture_interval) :
    (capture_screenshot (capture_screenshot st t true).2 t' true).1 = none := by
  have hstate : (capture_screenshot st t true).2
      = { st with last_capture_time := t } := by
    unfold capture_screenshot
    split
    · next h =>
      exfalso
      unfold capture_screenshot at hp
      rw [if_pos h] at hp
      simp at hp
    · rfl
  rw [hstate]
  simp only [capture_screenshot]
  rw [if_pos]
  exact ⟨trivial, hlt⟩

/-- Witness for `capture_throttle`: a capture proceeds at time 10 and a
request one second later is dropped. -/
theorem capture_throttle_witness :
    ((capture_screenshot ScreenshotCapturer.init 10 true).1.isSome = true) ∧
    ((11 : Int) - 10 < ScreenshotCapturer.init.min_capture_interval) ∧
    ((capture_screenshot (capture_screenshot ScreenshotCapturer.init 10 true).2
        11 true).1 = none) :=
  ⟨by decide, by decide,
   capture_throttle ScreenshotCapturer.init 10 11 (by decide) (by decide)⟩

end LaNation
